import Mathlib

/-!
Verification development for the sslang front end: a shallow embedding of
the lexical analyser (src/lexical/lexer.go) and the scope/type analyser
(src/scope/scope.go), with theorems settling the specification claims.

Modelling conventions:
* Go's `*bytes.Buffer` is modelled by `Buffer`: the list of not-yet-read
  characters together with the "last successfully read rune" that
  `UnreadRune` may push back (`bytes.Buffer` refuses `UnreadRune` when the
  previous operation was not a successful `ReadRune`; we track that with an
  `Option Char`).
* Go runes are modelled as `Char`; `unicode.IsSpace` / `IsLetter` /
  `IsDigit` are modelled on the character ranges the language actually
  uses (ASCII plus the Latin-1 spaces for `IsSpace`).
* Fallible Go code returning `(T, error)` is modelled as `Except LexErr T`
  (plus the mutated state, which in Go persists across an error return).
* Pointers are modelled by tagging each heap object with a numeric id;
  Go pointer equality is id equality.
-/

/-- Modelled from the spec: the token vocabulary.  The Go file declaring the
token constants (`EOF`, `ID`, `Numeral`, ..., and the reserved-word table) is
not under src/ (src/lexical/lexer.go and its test use them but do not define
them); per spec §3 a token is "a discriminated code", so the vocabulary is
modelled as an inductive enumeration with one constructor per code named in
the sources.  `StringConst` models the Go constant `String` (renamed to avoid
shadowing Lean's string type); the numeric values of the codes are unknown
and immaterial to the claims, which only need the codes to be distinct. -/
inductive Tok : Type where
  | UNKNOWN
  | EOF
  | ID
  | Numeral
  | Stringval
  | StringConst
  | Character
  | Colon
  | Semicolon
  | Comma
  | Times
  | Divide
  | Dot
  | LeftSquare
  | RightSquare
  | LeftBraces
  | RightBraces
  | LeftParenthesis
  | RightParenthesis
  | And
  | Or
  | Equals
  | EqualEqual
  | LessThan
  | LessOrEqual
  | GreaterThan
  | GreaterOrEqual
  | Not
  | NotEqual
  | Plus
  | PlusPlus
  | Minus
  | MinusMinus
  | Var
  | Integer
  | Function
  deriving DecidableEq, Repr

/-- The errors the lexer layer can produce: `ioEOF` models Go's `io.EOF`,
`invalidCharacter` the `errors.New("Invalid character")` for a lone `&`/`|`,
`expectedQuotes` the `fmt.Errorf("Expected quotes")` for a malformed character
literal, and `unreadRuneErr` the error `bytes.Buffer.UnreadRune` returns when
the previous operation was not a successful `ReadRune`. -/
inductive LexErr : Type where
  | ioEOF
  | invalidCharacter
  | expectedQuotes
  | unreadRuneErr
  deriving DecidableEq, Repr

/-- Model of `*bytes.Buffer` as used by the lexer: remaining input plus the
rune available to `UnreadRune` (the last successfully read rune, if the last
operation was a successful `ReadRune`). -/
structure Buffer : Type where
  data : List Char
  lastRead : Option Char
  deriving DecidableEq, Repr

/-- `buf.ReadRune()`: `none` models the `io.EOF` error (after which Go's
buffer refuses `UnreadRune`, hence `lastRead` is cleared). -/
def Buffer.readRune (b : Buffer) : Option Char × Buffer :=
  match b.data with
  | [] => (none, ⟨[], none⟩)
  | c :: rest => (some c, ⟨rest, some c⟩)

/-- `buf.UnreadRune()`: succeeds exactly when the previous operation was a
successful `ReadRune`, pushing that rune back. -/
def Buffer.unreadRune (b : Buffer) : Option Buffer :=
  match b.lastRead with
  | some c => some ⟨c :: b.data, none⟩
  | none => none

/-- `buf.UnreadRune()` with the error result discarded, as the identifier and
numeral branches of `nextToken` do (lexer.go lines 108 and 123): on failure
the buffer is left unchanged. -/
def unreadIgnored (buf : Buffer) : Buffer :=
  match buf.unreadRune with
  | some b => b
  | none => buf

/-- `unicode.IsSpace`, on the Latin-1 range Go documents for it:
`'\t'`, `'\n'`, `'\v'`, `'\f'`, `'\r'`, `' '`, U+0085 (NEL), U+00A0 (NBSP). -/
def isSpaceGo (r : Char) : Bool :=
  r = ' ' || r = '\t' || r = '\n' || (r = Char.ofNat 11) || (r = Char.ofNat 12) ||
    r = '\r' || (r = Char.ofNat 133) || (r = Char.ofNat 160)

/-- `isAlpha` (lexer.go): `unicode.IsLetter`, modelled on ASCII letters. -/
def isAlpha (r : Char) : Bool :=
  r.isAlpha

/-- `isDigit` (lexer.go): `unicode.IsDigit`, modelled on ASCII digits. -/
def isDigit (r : Char) : Bool :=
  r.isDigit

/-- `isAlphaNumeric` (lexer.go). -/
def isAlphaNumeric (r : Char) : Bool :=
  isAlpha r || isDigit r

/-- A `Constant` value: the dynamic type of the Go `interface{}` field
`Constant.Value` (`int`, `string` or `rune`). -/
inductive ConstVal : Type where
  | vint (n : Nat)
  | vstr (s : String)
  | vrune (c : Char)
  deriving DecidableEq, Repr

/-- `Constant` (lexer.go): a tag (a token code: `Numeral`, `String` or
`Character`) and the stored value. -/
structure Constant : Type where
  type : Tok
  value : ConstVal
  deriving DecidableEq, Repr

/-- `addNumeralConstant`: append to the shared constants table, tag `Numeral`,
return the new entry's index (`len(constants) - 1` after the append). -/
def addNumeralConstant (cs : List Constant) (n : Nat) : List Constant × Nat :=
  (cs ++ [⟨Tok.Numeral, ConstVal.vint n⟩], cs.length)

/-- `addStringConstant`: append to the shared constants table, tag `String`. -/
def addStringConstant (cs : List Constant) (s : String) : List Constant × Nat :=
  (cs ++ [⟨Tok.StringConst, ConstVal.vstr s⟩], cs.length)

/-- `addRuneConstant`: append to the shared constants table, tag `Character`. -/
def addRuneConstant (cs : List Constant) (c : Char) : List Constant × Nat :=
  (cs ++ [⟨Tok.Character, ConstVal.vrune c⟩], cs.length)

/-- `GetRuneConstant`: `a.constants[n].Value.(rune)` with the `ok` discarded —
a failed type assertion yields the zero rune.  `none` models the
index-out-of-range panic of `a.constants[n]`. -/
def GetRuneConstant (cs : List Constant) (n : Nat) : Option Char :=
  (cs.get? n).map fun c =>
    match c.value with
    | ConstVal.vrune r => r
    | _ => Char.ofNat 0

/-- `GetStringConstant`: zero value `""` on a failed type assertion. -/
def GetStringConstant (cs : List Constant) (n : Nat) : Option String :=
  (cs.get? n).map fun c =>
    match c.value with
    | ConstVal.vstr s => s
    | _ => ""

/-- `GetNumeralConstant`: zero value `0` on a failed type assertion. -/
def GetNumeralConstant (cs : List Constant) (n : Nat) : Option Nat :=
  (cs.get? n).map fun c =>
    match c.value with
    | ConstVal.vint v => v
    | _ => 0

/-- Association-list lookup, modelling Go map indexing (`m[key]` with the
`ok` flag as the `Option`). -/
def assocLookup {α : Type} : List (String × α) → String → Option α
  | [], _ => none
  | (k, v) :: rest, s => if k = s then some v else assocLookup rest s

/-- Modelled from the spec: `ReservedWordTokens`, the "fixed reserved-word
table" of §4.1.  Its defining Go file is not under src/; the table is
populated with the keywords the spec's test vector (§8.4) names.  No claim
depends on the table's completeness. -/
def ReservedWordTokens : List (String × Tok) :=
  [("var", Tok.Var), ("integer", Tok.Integer), ("function", Tok.Function)]

/-- `registerIdentifier` acting on the identifier table: a hit returns the
existing id, a miss interns the text with id `len(identifiers)` (the table's
size before insertion).  The Go map is modelled as an insertion-ordered
association list (lookup-only use, no deletions, so the representations
agree). -/
def registerIdentifierTbl (ids : List (String × Nat)) (s : String) :
    List (String × Nat) × Nat :=
  match assocLookup ids s with
  | some id => (ids, id)
  | none => (ids ++ [(s, ids.length)], ids.length)

/-- The `Lexer` state (lexer.go), minus the `program` buffer, which the
methods take as an explicit argument here (`nextToken` receives the buffer as
a parameter in the source too; its test exercises it with fresh buffers). -/
structure Lexer : Type where
  identifiers : List (String × Nat)
  constants : List Constant
  line : Nat
  secondaryToken : Nat
  deriving DecidableEq, Repr

/-- `NewLexer`: empty tables, `Line: 0` (as written in the source), and the
program wrapped in a fresh buffer. -/
def NewLexer (program : List Char) : Lexer × Buffer :=
  (⟨[], [], 0, 0⟩, ⟨program, none⟩)

/-- The whitespace-skipping loop at the top of `nextToken` (lexer.go lines
76-89): read runes, incrementing the line counter on each `'\n'`, until a
non-space rune (returned) or end of input (`none`). -/
def skipLoop (line : Nat) : List Char → Option Char × Nat × List Char
  | [] => (none, line, [])
  | c :: rest =>
      let line1 := if c = '\n' then line + 1 else line
      if isSpaceGo c then skipLoop line1 rest else (some c, line1, rest)

/-- The scanning loop of `parseWord` (lexer.go lines 343-354), entered with a
just-read rune `c`: while the criterion holds, accumulate and read on; a
non-matching rune ends the word (it stays read, available to `UnreadRune`);
end of input ends the word with nothing to unread.  Returns the word's
characters and the final buffer data / `lastRead`. -/
def parseWordLoop (criteria : Char → Bool) (c : Char) :
    List Char → List Char × List Char × Option Char
  | [] => if criteria c then ([c], [], none) else ([], [], some c)
  | c2 :: rest =>
      if criteria c then
        match parseWordLoop criteria c2 rest with
        | (w, d, lr) => (c :: w, d, lr)
      else ([], c2 :: rest, some c)

/-- `parseWord` (lexer.go): `UnreadRune` the caller's last rune (failing if
there is none to unread), re-read it, then run the scanning loop.  The second
`ReadRune` cannot fail (the unread just made the buffer non-empty), so the
source's check on it is not reachable. -/
def parseWord (buf : Buffer) (criteria : Char → Bool) :
    Except LexErr String × Buffer :=
  match buf.lastRead with
  | none => (Except.error LexErr.unreadRuneErr, buf)
  | some c =>
      match parseWordLoop criteria c buf.data with
      | (w, d, lr) => (Except.ok (String.mk w), ⟨d, lr⟩)

/-- `strconv.Atoi` on an all-digit string (the scanner guarantees digits;
the discarded error / 64-bit overflow of Go's `int` is not modelled, and no
claim concerns numeral values). -/
def atoiDigits (s : String) : Nat :=
  s.data.foldl (fun acc c => acc * 10 + (c.toNat - 48)) 0

/-- The classification of `nextToken` after whitespace skipping (lexer.go
lines 91-326), given the first non-space rune `c`; `buf` holds the rest of
the input with `c` as the rune available to `UnreadRune`. -/
def nextTokenClassify (a : Lexer) (c : Char) (buf : Buffer) :
    Except LexErr Tok × Lexer × Buffer :=
  if isAlpha c then
    match parseWord buf (fun r => isAlphaNumeric r || r = '_') with
    | (Except.error e, buf2) => (Except.error e, a, buf2)
    | (Except.ok text, buf2) =>
        match assocLookup ReservedWordTokens text with
        | some reservedToken => (Except.ok reservedToken, a, unreadIgnored buf2)
        | none =>
            match registerIdentifierTbl a.identifiers text with
            | (ids2, id) =>
                (Except.ok Tok.ID,
                  { a with identifiers := ids2, secondaryToken := id },
                  unreadIgnored buf2)
  else if isDigit c then
    match parseWord buf (fun r => isDigit r) with
    | (Except.error e, buf2) => (Except.error e, a, buf2)
    | (Except.ok text, buf2) =>
        match addNumeralConstant a.constants (atoiDigits text) with
        | (cs2, idx) =>
            (Except.ok Tok.Numeral,
              { a with constants := cs2, secondaryToken := idx },
              unreadIgnored buf2)
  else if c = '"' then
    -- the source calls buf.ReadRune() discarding all results, then parseWord
    -- unreads that rune and rescans it
    match buf.readRune with
    | (_, buf2) =>
        match parseWord buf2 (fun r => !(r = '"')) with
        | (Except.error e, buf3) => (Except.error e, a, buf3)
        | (Except.ok text, buf3) =>
            match addStringConstant a.constants text with
            | (cs2, idx) =>
                (Except.ok Tok.Stringval,
                  { a with constants := cs2, secondaryToken := idx }, buf3)
  else
    match c with
    | ':' => (Except.ok Tok.Colon, a, buf)
    | ';' => (Except.ok Tok.Semicolon, a, buf)
    | ',' => (Except.ok Tok.Comma, a, buf)
    | '*' => (Except.ok Tok.Times, a, buf)
    | '/' => (Except.ok Tok.Divide, a, buf)
    | '.' => (Except.ok Tok.Dot, a, buf)
    | '[' => (Except.ok Tok.LeftSquare, a, buf)
    | ']' => (Except.ok Tok.RightSquare, a, buf)
    | '{' => (Except.ok Tok.LeftBraces, a, buf)
    | '}' => (Except.ok Tok.RightBraces, a, buf)
    | '(' => (Except.ok Tok.LeftParenthesis, a, buf)
    | ')' => (Except.ok Tok.RightParenthesis, a, buf)
    | '\'' =>
        match buf.readRune with
        | (none, buf2) => (Except.error LexErr.ioEOF, a, buf2)
        | (some runeCtt, buf2) =>
            match buf2.readRune with
            | (none, buf3) => (Except.error LexErr.ioEOF, a, buf3)
            | (some expectedQuotes, buf3) =>
                if !(expectedQuotes = '\'') then
                  (Except.error LexErr.expectedQuotes, a, buf3)
                else
                  match addRuneConstant a.constants runeCtt with
                  | (cs2, idx) =>
                      (Except.ok Tok.Character,
                        { a with constants := cs2, secondaryToken := idx },
                        buf3)
    | '&' =>
        match buf.readRune with
        | (none, buf2) => (Except.error LexErr.ioEOF, a, buf2)
        | (some c2, buf2) =>
            if !(c2 = '&') then (Except.error LexErr.invalidCharacter, a, buf2)
            else (Except.ok Tok.And, a, buf2)
    | '|' =>
        match buf.readRune with
        | (none, buf2) => (Except.error LexErr.ioEOF, a, buf2)
        | (some c2, buf2) =>
            if !(c2 = '|') then (Except.error LexErr.invalidCharacter, a, buf2)
            else (Except.ok Tok.Or, a, buf2)
    | '=' =>
        match buf.readRune with
        | (none, buf2) => (Except.ok Tok.Equals, a, buf2)
        | (some c2, buf2) =>
            if !(c2 = '=') then
              match buf2.unreadRune with
              | none => (Except.error LexErr.unreadRuneErr, a, buf2)
              | some buf3 => (Except.ok Tok.Equals, a, buf3)
            else (Except.ok Tok.EqualEqual, a, buf2)
    | '<' =>
        match buf.readRune with
        | (none, buf2) => (Except.ok Tok.LessThan, a, buf2)
        | (some c2, buf2) =>
            if !(c2 = '=') then
              match buf2.unreadRune with
              | none => (Except.error LexErr.unreadRuneErr, a, buf2)
              | some buf3 => (Except.ok Tok.LessThan, a, buf3)
            else (Except.ok Tok.LessOrEqual, a, buf2)
    | '>' =>
        match buf.readRune with
        | (none, buf2) => (Except.ok Tok.GreaterThan, a, buf2)
        | (some c2, buf2) =>
            if !(c2 = '=') then
              match buf2.unreadRune with
              | none => (Except.error LexErr.unreadRuneErr, a, buf2)
              | some buf3 => (Except.ok Tok.GreaterThan, a, buf3)
            else (Except.ok Tok.GreaterOrEqual, a, buf2)
    | '!' =>
        match buf.readRune with
        | (none, buf2) => (Except.ok Tok.Not, a, buf2)
        | (some c2, buf2) =>
            if !(c2 = '=') then
              match buf2.unreadRune with
              | none => (Except.error LexErr.unreadRuneErr, a, buf2)
              | some buf3 => (Except.ok Tok.Not, a, buf3)
            else (Except.ok Tok.NotEqual, a, buf2)
    | '+' =>
        match buf.readRune with
        | (none, buf2) => (Except.ok Tok.Plus, a, buf2)
        | (some c2, buf2) =>
            if !(c2 = '+') then
              match buf2.unreadRune with
              | none => (Except.error LexErr.unreadRuneErr, a, buf2)
              | some buf3 => (Except.ok Tok.Plus, a, buf3)
            else (Except.ok Tok.PlusPlus, a, buf2)
    | '-' =>
        match buf.readRune with
        | (none, buf2) => (Except.ok Tok.Minus, a, buf2)
        | (some c2, buf2) =>
            if !(c2 = '-') then
              match buf2.unreadRune with
              | none => (Except.error LexErr.unreadRuneErr, a, buf2)
              | some buf3 => (Except.ok Tok.Minus, a, buf3)
            else (Except.ok Tok.MinusMinus, a, buf2)
    | _ => (Except.ok Tok.UNKNOWN, a, buf)

/-- `nextToken` (lexer.go, lowercase method): skip whitespace maintaining the
line counter, then classify; end of input during the skip is `io.EOF`.
Mutations made before an error return persist, as in the Go method. -/
def nextToken (a : Lexer) (buf : Buffer) : Except LexErr Tok × Lexer × Buffer :=
  match skipLoop a.line buf.data with
  | (none, line1, _) => (Except.error LexErr.ioEOF, { a with line := line1 }, ⟨[], none⟩)
  | (some c, line1, rest) => nextTokenClassify { a with line := line1 } c ⟨rest, some c⟩

/-- `NextToken` (lexer.go, the exported method): calls `nextToken`, turns
`io.EOF` into the `EOF` token — and returns a literal `nil` error in every
case (`return token, nil`), so a lexical error surfaces only as the `-1`
token value `nextToken` returned alongside it; that out-of-vocabulary `-1`
is modelled as `none`.  The error component is kept in the result to mirror
the Go signature; it is `none` (nil) by construction. -/
def NextToken (a : Lexer) (buf : Buffer) :
    (Option Tok × Option LexErr) × Lexer × Buffer :=
  match nextToken a buf with
  | (Except.error LexErr.ioEOF, a2, b2) => ((some Tok.EOF, none), a2, b2)
  | (Except.error _, a2, b2) => ((none, none), a2, b2)
  | (Except.ok t, a2, b2) => ((some t, none), a2, b2)

/-- The loop of `Run` (lexer.go): pull tokens, abort on a non-EOF error (dead
in practice: `NextToken` never returns one), append each token, stop after
appending `EOF`.  Go's unbounded `for` is modelled with fuel; each iteration
consumes at least one input character, so `length + 1` fuel always suffices,
and the `none` fuel-exhaustion result is unreachable from `Run`. -/
def runAux : Nat → Lexer → Buffer → List (Option Tok) →
    Option (List (Option Tok)) × Lexer × Buffer
  | 0, a, buf, _ => (none, a, buf)
  | fuel + 1, a, buf, acc =>
      match NextToken a buf with
      | ((token, err), a2, buf2) =>
          if err ≠ none ∧ err ≠ some LexErr.ioEOF then (none, a2, buf2)
          else
            if token = some Tok.EOF then (some (acc ++ [token]), a2, buf2)
            else runAux fuel a2 buf2 (acc ++ [token])

/-- `Run` (lexer.go): the token-collecting loop started on the lexer's own
program buffer. -/
def Run (a : Lexer) (buf : Buffer) :
    Option (List (Option Tok)) × Lexer × Buffer :=
  runAux (buf.data.length + 1) a buf []

/-! ## Scope and type analyser (src/scope/scope.go) -/

/-- `maxNestLevel` (scope.go): capacity of the scope-level array. -/
def maxNestLevel : Nat := 64

/-- `Kind` (scope.go): the kinds of scope objects.  The Go values are small
integers (`iota`, with `KindUndefined = -1`); `CheckTypes` only ever compares
them for equality, so an enumeration is a faithful model. -/
inductive Kind : Type where
  | KindVar
  | KindParam
  | KindFunction
  | KindField
  | KindArrayType
  | KindStructType
  | KindAliasType
  | KindScalarType
  | KindUniversal
  | KindUndefined
  deriving DecidableEq, Repr

mutual

/-- `Object` and the `ObjectType` interface (scope.go), with the `T` payload
inlined.  `oid` is the pointer-identity tag: Go compares `*Object` pointers
(`p1 == p2`, `p1 == pUniversalObj`), modelled as equality of `oid`; distinct
heap objects carry distinct ids.  The `Next` link threads symbols into scope
chains; `CheckTypes` never reads it and no claim concerns the chain
operations, so it is not part of the embedding. -/
inductive Object : Type where
  | mk (oid : Nat) (name : Int) (kind : Kind) (t : OTy)

/-- The dynamic type of the `T ObjectType` field: absent (`nil`), `Alias`,
`Array`, or `Struct`.  For `Struct`, `CheckTypes` reads the `Fields` head
only to compare it against `nil`, so it is kept as an `Option Object`. -/
inductive OTy : Type where
  | tnil
  | talias (baseType : Object) (size : Int)
  | tarray (elemType : Object) (numElements : Int) (size : Int)
  | tstruct (fields : Option Object) (size : Int)

end

mutual

/-- Size measure on the object tree, for the termination of `CheckTypes`. -/
def osize : Object → Nat
  | Object.mk _ _ _ t => tsize t + 1

def tsize : OTy → Nat
  | OTy.tnil => 0
  | OTy.talias b _ => osize b + 1
  | OTy.tarray e _ _ => osize e + 1
  | OTy.tstruct _ _ => 0

end

/-- The pointer id of the package-level singleton `pUniversalObj`. -/
def universalId : Nat := 0

/-- `universalObj` / `pUniversalObj` (scope.go): `Object{-1, nil,
KindScalarType, nil}`, the wildcard the equivalence check special-cases by
pointer identity. -/
def pUniversalObj : Object :=
  Object.mk universalId (-1) Kind.KindScalarType OTy.tnil

/-- `intObj` / `pIntObj` (scope.go): a builtin scalar singleton.  The four
builtin scalars are structurally identical objects distinguished only by
pointer identity, hence by their ids here. -/
def pIntObj : Object :=
  Object.mk 1 (-1) Kind.KindScalarType OTy.tnil

/-- `charObj` / `pCharObj` (scope.go). -/
def pCharObj : Object :=
  Object.mk 2 (-1) Kind.KindScalarType OTy.tnil

/-- `CheckTypes` (scope.go): the type-equivalence decision procedure,
translated branch for branch.  `some b` is a normal boolean return; `none`
models a panic of one of the unchecked interface type assertions
(`p1.T.(Alias)`, `p2.T.(Array)`, ...).  The condition of the sixth branch is
`p1.Kind == p1.Kind` — the self-comparison exactly as written in the source
(line 178), not `p1.Kind == p2.Kind`. -/
def CheckTypes (p1 p2 : Object) : Option Bool :=
  match p1, p2 with
  | Object.mk id1 name1 k1 t1, Object.mk id2 name2 k2 t2 =>
    if id1 = id2 then some true
    else if id1 = universalId ∨ id2 = universalId then some true
    else if k1 = Kind.KindUniversal ∨ k2 = Kind.KindUniversal then some true
    else if k1 = Kind.KindAliasType ∧ ¬(k2 = Kind.KindAliasType) then
      match t1 with
      | OTy.talias base _ => CheckTypes base (Object.mk id2 name2 k2 t2)
      | _ => none
    else if ¬(k1 = Kind.KindAliasType) ∧ k2 = Kind.KindAliasType then
      match t2 with
      | OTy.talias base _ => CheckTypes (Object.mk id1 name1 k1 t1) base
      | _ => none
    else if k1 = k1 then
      if k1 = Kind.KindAliasType then
        match t1, t2 with
        | OTy.talias b1 _, OTy.talias b2 _ => CheckTypes b1 b2
        | _, _ => none
      else if k1 = Kind.KindArrayType then
        match t1, t2 with
        | OTy.tarray e1 c1 _, OTy.tarray e2 c2 _ =>
            if c1 = c2 then CheckTypes e1 e2 else some false
        | _, _ => none
      else if k1 = Kind.KindStructType then
        match t1, t2 with
        -- the f1 != nil && f2 != nil branch has an empty TODO body, so both
        -- of its outcomes fall through to the final return false
        | OTy.tstruct _ _, OTy.tstruct _ _ => some false
        | _, _ => none
      else some false
    else some false
  termination_by osize p1 + osize p2
  decreasing_by
    all_goals simp [osize, tsize]
    all_goals omega

/-- Well-formedness of an object's alias chain: every object of kind
`KindAliasType` along the chain actually carries an `Alias` descriptor (the
invariant spec §3 states: "Every TypeDescriptor variant correlates exactly
with its SymbolKind"). -/
def WFAlias : Object → Prop
  | Object.mk _ _ Kind.KindAliasType (OTy.talias b _) => WFAlias b
  | Object.mk _ _ Kind.KindAliasType OTy.tnil => False
  | Object.mk _ _ Kind.KindAliasType (OTy.tarray _ _ _) => False
  | Object.mk _ _ Kind.KindAliasType (OTy.tstruct _ _) => False
  | Object.mk _ _ _ _ => True

/-- `Analyser` (scope.go): the fixed 64-slot array of level heads and the
current-level cursor (a Go `int`, so it can in principle leave `[0, 64)`). -/
structure Analyser : Type where
  symbolTable : Fin maxNestLevel → Option Object
  level : Int

/-- `NewBlock` (scope.go): `a.level++; a.symbolTable[a.level] = nil; return
a.level` — no depth check; `none` models the index-out-of-range panic of the
array write when the incremented cursor is outside `[0, 64)`. -/
def NewBlock (a : Analyser) : Option (Analyser × Int) :=
  if h : 0 ≤ a.level + 1 ∧ a.level + 1 < (maxNestLevel : Int) then
    some
      ({ a with
          level := a.level + 1,
          symbolTable :=
            Function.update a.symbolTable
              ⟨(a.level + 1).toNat, by
                have h2 := h.2
                simp only [maxNestLevel] at h2 ⊢
                omega⟩
              none },
        a.level + 1)
  else none

/-- `EndBlock` (scope.go): `a.level--; return a.level` — unconditionally,
with no underflow check and no array access. -/
def EndBlock (a : Analyser) : Analyser × Int :=
  ({ a with level := a.level - 1 }, a.level - 1)

/-! ## Lemmas about `CheckTypes` -/

/-- Identical references (equal ids) are equivalent: the first branch. -/
theorem checkTypes_refl (x : Object) : CheckTypes x x = some true := by
  cases x with
  | mk i n k t =>
      refine Eq.trans (CheckTypes.eq_def _ _) ?_
      simp

/-- Equivalence against the Universal wildcard object, right side. -/
theorem checkTypes_universal_right (x : Object) :
    CheckTypes x pUniversalObj = some true := by
  cases x with
  | mk i n k t =>
      refine Eq.trans (CheckTypes.eq_def _ _) ?_
      simp [pUniversalObj, universalId]

/-- Equivalence against the Universal wildcard object, left side. -/
theorem checkTypes_universal_left (x : Object) :
    CheckTypes pUniversalObj x = some true := by
  cases x with
  | mk i n k t =>
      refine Eq.trans (CheckTypes.eq_def _ _) ?_
      simp [pUniversalObj, universalId]

/-- Equivalence against any symbol of kind `KindUniversal`, right side. -/
theorem checkTypes_kind_universal_right (x : Object) (i : Nat) (nm : Int)
    (t : OTy) :
    CheckTypes x (Object.mk i nm Kind.KindUniversal t) = some true := by
  cases x with
  | mk i1 n1 k1 t1 =>
      refine Eq.trans (CheckTypes.eq_def _ _) ?_
      simp

/-- Equivalence against any symbol of kind `KindUniversal`, left side. -/
theorem checkTypes_kind_universal_left (x : Object) (i : Nat) (nm : Int)
    (t : OTy) :
    CheckTypes (Object.mk i nm Kind.KindUniversal t) x = some true := by
  cases x with
  | mk i1 n1 k1 t1 =>
      refine Eq.trans (CheckTypes.eq_def _ _) ?_
      simp

/-- An alias symbol is equivalent to its base type, by induction on the size
of the (well-formed) alias chain of the base. -/
theorem checkTypes_alias_base_aux :
    ∀ (m : Nat) (x : Object), osize x ≤ m → WFAlias x →
      ∀ (i : Nat) (nm sz : Int),
        CheckTypes (Object.mk i nm Kind.KindAliasType (OTy.talias x sz)) x =
          some true := by
  intro m
  induction m with
  | zero =>
      intro x hx
      cases x with
      | mk i2 n2 k2 t2 => simp [osize] at hx
  | succ m ih =>
      intro x hx hwf i nm sz
      cases x with
      | mk i2 n2 k2 t2 =>
          refine Eq.trans (CheckTypes.eq_def _ _) ?_
          by_cases hid : i = i2
          · simp [hid]
          · by_cases huniv : i = universalId ∨ i2 = universalId
            · simp [hid, huniv]
            · by_cases hku : k2 = Kind.KindUniversal
              · simp [hid, huniv, hku]
              · by_cases hka : k2 = Kind.KindAliasType
                · subst hka
                  cases t2 with
                  | talias b sz2 =>
                      have hwfb : WFAlias b := by
                        simpa [WFAlias] using hwf
                      have hb : osize b ≤ m := by
                        simp [osize, tsize] at hx
                        omega
                      simpa [hid, huniv] using ih b hb hwfb i2 n2 sz2
                  | tnil => simp [WFAlias] at hwf
                  | tarray e c s => simp [WFAlias] at hwf
                  | tstruct f s => simp [WFAlias] at hwf
                · simpa [hid, huniv, hku, hka] using
                    checkTypes_refl (Object.mk i2 n2 k2 t2)

/-- Two distinct (by pointer), non-wildcard array-kind symbols with array
descriptors: `CheckTypes` reduces to the count comparison followed by the
recursive element check. -/
theorem checkTypes_array_step (i1 i2 : Nat) (n1 n2 : Int) (e1 e2 : Object)
    (c1 c2 s1 s2 : Int) (h1 : ¬ i1 = universalId) (h2 : ¬ i2 = universalId)
    (hne : ¬ i1 = i2) :
    CheckTypes (Object.mk i1 n1 Kind.KindArrayType (OTy.tarray e1 c1 s1))
        (Object.mk i2 n2 Kind.KindArrayType (OTy.tarray e2 c2 s2)) =
      if c1 = c2 then CheckTypes e1 e2 else some false := by
  refine Eq.trans (CheckTypes.eq_def _ _) ?_
  simp [hne, h1, h2]

/-! ## Claims C3, C7, C8 -/

/-- C3: false as stated, exhibiting the crash.  The claim says that for two
symbols of different non-alias, non-universal kinds `CheckTypes` totally
evaluates to "not equivalent"; but because line 178 of scope.go compares
`p1.Kind == p1.Kind` (a self-comparison, always true) instead of
`p1.Kind == p2.Kind`, an array-kind symbol paired with a struct-kind symbol
reaches the unchecked type assertion `p2.T.(Array)` on a `Struct` value and
panics (modelled as `none`). -/
theorem c3_array_struct_panic :
    CheckTypes (Object.mk 10 5 Kind.KindArrayType (OTy.tarray pIntObj 3 12))
      (Object.mk 11 6 Kind.KindStructType (OTy.tstruct none 8)) = none := by
  refine Eq.trans (CheckTypes.eq_def _ _) ?_
  simp [universalId]

/-- C7: for two array-kind symbols (with array descriptors, distinct from
the Universal wildcard, and with pointer ids that are faithful: equal ids
mean the same object), `CheckTypes` returns equivalent iff the element
counts are equal and the element types are recursively equivalent; and two
distinct struct-kind symbols are always reported not equivalent (the
unfinished field-comparison branch falls through to `false`). -/
theorem c7_array_struct_equiv :
    (∀ (i1 i2 : Nat) (n1 n2 : Int) (e1 e2 : Object) (c1 c2 s1 s2 : Int),
      ¬ i1 = universalId → ¬ i2 = universalId →
      (i1 = i2 →
        Object.mk i1 n1 Kind.KindArrayType (OTy.tarray e1 c1 s1) =
          Object.mk i2 n2 Kind.KindArrayType (OTy.tarray e2 c2 s2)) →
      (CheckTypes (Object.mk i1 n1 Kind.KindArrayType (OTy.tarray e1 c1 s1))
          (Object.mk i2 n2 Kind.KindArrayType (OTy.tarray e2 c2 s2)) =
            some true ↔
        (c1 = c2 ∧ CheckTypes e1 e2 = some true))) ∧
    (∀ (i1 i2 : Nat) (n1 n2 : Int) (f1 f2 : Option Object) (s1 s2 : Int),
      ¬ i1 = universalId → ¬ i2 = universalId → ¬ i1 = i2 →
      CheckTypes (Object.mk i1 n1 Kind.KindStructType (OTy.tstruct f1 s1))
        (Object.mk i2 n2 Kind.KindStructType (OTy.tstruct f2 s2)) =
          some false) := by
  constructor
  · intro i1 i2 n1 n2 e1 e2 c1 c2 s1 s2 h1 h2 hinj
    by_cases hid : i1 = i2
    · have hobj := hinj hid
      have hc : c1 = c2 := by injection hobj with _ _ _ ht; injection ht
      have he : e1 = e2 := by injection hobj with _ _ _ ht; injection ht
      rw [hobj]
      simp [checkTypes_refl, hc, he]
    · rw [checkTypes_array_step i1 i2 n1 n2 e1 e2 c1 c2 s1 s2 h1 h2 hid]
      by_cases hc : c1 = c2 <;> simp [hc]
  · intro i1 i2 n1 n2 f1 f2 s1 s2 h1 h2 hne
    refine Eq.trans (CheckTypes.eq_def _ _) ?_
    simp [hne, h1, h2]

/-- C7 witness: the array equivalence step and the struct fall-through at
concrete symbols. -/
theorem c7_array_struct_equiv_witness :
    (CheckTypes (Object.mk 10 5 Kind.KindArrayType (OTy.tarray pIntObj 3 12))
        (Object.mk 11 6 Kind.KindArrayType (OTy.tarray pCharObj 3 12)) =
          some true ↔
      ((3 : Int) = 3 ∧ CheckTypes pIntObj pCharObj = some true)) ∧
    CheckTypes (Object.mk 12 7 Kind.KindStructType (OTy.tstruct none 8))
      (Object.mk 13 8 Kind.KindStructType (OTy.tstruct none 8)) = some false := by
  constructor
  · exact c7_array_struct_equiv.1 10 11 5 6 pIntObj pCharObj 3 3 12 12
      (by decide) (by decide) (fun h => absurd h (by decide))
  · exact c7_array_struct_equiv.2 12 13 7 8 none none 8 8
      (by decide) (by decide) (by decide)

/-- C8: `CheckTypes` is reflexive; an alias symbol is equivalent to its base
(for a base whose alias chain is well formed, i.e. every alias-kind object
along it carries an `Alias` descriptor, as spec §3 requires); and either the
Universal wildcard object or any symbol of kind `KindUniversal` is
equivalent to anything, on both sides. -/
theorem c8_equiv_reflexive_alias_universal :
    (∀ x : Object, CheckTypes x x = some true) ∧
    (∀ (x : Object) (i : Nat) (nm sz : Int), WFAlias x →
      CheckTypes (Object.mk i nm Kind.KindAliasType (OTy.talias x sz)) x =
        some true) ∧
    (∀ x : Object,
      CheckTypes x pUniversalObj = some true ∧
      CheckTypes pUniversalObj x = some true) ∧
    (∀ (x : Object) (i : Nat) (nm : Int) (t : OTy),
      CheckTypes x (Object.mk i nm Kind.KindUniversal t) = some true ∧
      CheckTypes (Object.mk i nm Kind.KindUniversal t) x = some true) := by
  refine ⟨checkTypes_refl, ?_, ?_, ?_⟩
  · intro x i nm sz hwf
    exact checkTypes_alias_base_aux (osize x) x le_rfl hwf i nm sz
  · intro x
    exact ⟨checkTypes_universal_right x, checkTypes_universal_left x⟩
  · intro x i nm t
    exact ⟨checkTypes_kind_universal_right x i nm t,
      checkTypes_kind_universal_left x i nm t⟩

/-- C8 witness: an alias to the builtin int scalar is equivalent to it. -/
theorem c8_equiv_reflexive_alias_universal_witness :
    CheckTypes (Object.mk 9 0 Kind.KindAliasType (OTy.talias pIntObj 4))
      pIntObj = some true :=
  c8_equiv_reflexive_alias_universal.2.1 pIntObj 9 0 4 (by simp [pIntObj, WFAlias])

/-! ## Claim C2 -/

/-- C2 counterexample: closing with no block open does not fail with an
underflow error — `EndBlock` on a fresh analyser (cursor 0) succeeds and
drives the level cursor to `-1`, outside `[0, maxNestLevel)`. -/
theorem c2_counterexample :
    (EndBlock ⟨fun _ => none, 0⟩).2 = -1 ∧
    ((EndBlock ⟨fun _ => none, 0⟩).1.level = -1 ∧
      ¬ (0 ≤ (EndBlock ⟨fun _ => none, 0⟩).1.level)) :=
  ⟨rfl, rfl, by decide⟩

/-- C2 amended: `NewBlock` increments the cursor and clears the new level,
but the only failure is the index-out-of-range panic of the array write when
the incremented cursor leaves `[0, 64)` — there is no checked overflow
error; and `EndBlock` unconditionally decrements and returns the new cursor,
with no underflow check, so the cursor is not kept within `[0, 64)`. -/
theorem c2_amended_blocks (a : Analyser) :
    ((NewBlock a).map fun p => (p.1.level, p.2)) =
      (if 0 ≤ a.level + 1 ∧ a.level + 1 < (maxNestLevel : Int) then
        some (a.level + 1, a.level + 1)
      else none) ∧
    (∀ p, NewBlock a = some p → ∀ i : Fin maxNestLevel,
      (i.val : Int) = a.level + 1 → p.1.symbolTable i = none) ∧
    EndBlock a = ({ a with level := a.level - 1 }, a.level - 1) := by
  refine ⟨?_, ?_, rfl⟩
  · by_cases h : 0 ≤ a.level + 1 ∧ a.level + 1 < (maxNestLevel : Int) <;>
      simp [NewBlock, h]
  · intro p hp i hi
    by_cases h : 0 ≤ a.level + 1 ∧ a.level + 1 < (maxNestLevel : Int)
    · simp only [NewBlock, dif_pos h] at hp
      obtain rfl : _ = p := Option.some_injective _ hp
      dsimp only
      rw [Function.update_apply]
      have h1 := h.1
      have hv : (i : Nat) = (a.level + 1).toNat := by omega
      simp [Fin.ext_iff, hv]
    · simp [NewBlock, dif_neg h] at hp

/-- C2 amended witness: on a fresh analyser, opening yields cursor 1 with an
empty new level, and closing yields cursor -1. -/
theorem c2_amended_blocks_witness :
    ((NewBlock ⟨fun _ => none, 0⟩).map fun p => (p.1.level, p.2)) =
      some (1, 1) ∧
    (∀ p, NewBlock (⟨fun _ => none, 0⟩ : Analyser) = some p →
      p.1.symbolTable ⟨1, by decide⟩ = none) ∧
    EndBlock ⟨fun _ => none, 0⟩ =
      ({ symbolTable := fun _ => none, level := -1 }, -1) := by
  have h := c2_amended_blocks ⟨fun _ => none, 0⟩
  refine ⟨?_, ?_, h.2.2⟩
  · rw [h.1]; decide
  · intro p hp
    exact h.2.1 p hp ⟨1, by decide⟩ (by decide)

/-! ## Claim C1 -/

/-- C1: false as stated — the lexical error does not propagate.  On input
`"& x"` the internal `nextToken` does raise the "Invalid character" error
for the lone `&`, but the exported `NextToken` returns `(-1, nil)` (the
error replaced by a literal `nil`), so `Run` appends the `-1` value
(modelled `none`) and keeps tokenizing past the offending character,
finishing with no error. -/
theorem c1_error_swallowed :
    (nextToken (NewLexer ['&', ' ', 'x']).1 (NewLexer ['&', ' ', 'x']).2).1 =
      Except.error LexErr.invalidCharacter ∧
    NextToken (NewLexer ['&', ' ', 'x']).1 (NewLexer ['&', ' ', 'x']).2 =
      ((none, none), ⟨[], [], 0, 0⟩, ⟨['x'], some ' '⟩) ∧
    (Run (NewLexer ['&', ' ', 'x']).1 (NewLexer ['&', ' ', 'x']).2).1 =
      some [none, some Tok.ID, some Tok.EOF] :=
  ⟨rfl, rfl, rfl⟩

/-! ## Claim C4 -/

/-- C4 counterexample: an opening `"` with no closing `"` before end of
input does not produce a lexical error — `"abc` lexes successfully to a
`Stringval` token whose constant is the text up to end of input. -/
theorem c4_counterexample :
    nextToken (NewLexer ['"', 'a', 'b', 'c']).1 (NewLexer ['"', 'a', 'b', 'c']).2 =
      (Except.ok Tok.Stringval,
        ⟨[], [⟨Tok.StringConst, ConstVal.vstr "abc"⟩], 0, 0⟩, ⟨[], none⟩) :=
  rfl

/-- The scanning loop consumes the whole buffer when every character
matches the criterion. -/
theorem parseWordLoop_all (criteria : Char → Bool) :
    ∀ (l : List Char) (c : Char), criteria c = true → l.all criteria = true →
      parseWordLoop criteria c l = (c :: l, [], none) := by
  intro l
  induction l with
  | nil => intro c hc _; simp [parseWordLoop, hc]
  | cons c2 rest ih =>
      intro c hc hall
      simp only [List.all_cons, Bool.and_eq_true] at hall
      simp [parseWordLoop, hc, ih c2 hall.1 hall.2]

/-- C4 amended: an unterminated string literal is not an error.  When the
opening `"` is followed by at least one character and no closing `"` occurs
before end of input, `nextToken` succeeds with a `Stringval` token whose
interned constant is everything after the opening quote (`parseWord` treats
end of input as the end of the word); only when the opening `"` is the very
last character of the input does `nextToken` fail — with the `UnreadRune`
error of the empty buffer, not a malformed-literal error. -/
theorem c4_amended_unterminated (ids : List (String × Nat))
    (cs : List Constant) (ln st : Nat) (lr : Option Char) (c : Char)
    (rest : List Char) :
    ((c :: rest).all (fun r => !(r = '"')) = true →
      nextToken ⟨ids, cs, ln, st⟩ ⟨'"' :: c :: rest, lr⟩ =
        (Except.ok Tok.Stringval,
          ⟨ids, cs ++ [⟨Tok.StringConst, ConstVal.vstr (String.mk (c :: rest))⟩],
            ln, cs.length⟩,
          ⟨[], none⟩)) ∧
    nextToken ⟨ids, cs, ln, st⟩ ⟨['"'], lr⟩ =
      (Except.error LexErr.unreadRuneErr, ⟨ids, cs, ln, st⟩, ⟨[], none⟩) := by
  refine ⟨?_, rfl⟩
  intro hall
  simp only [List.all_cons, Bool.and_eq_true] at hall
  simp [nextToken, skipLoop, isSpaceGo, nextTokenClassify, isAlpha, isDigit,
    Buffer.readRune, parseWord, parseWordLoop_all _ rest c hall.1 hall.2,
    addStringConstant]

/-- C4 amended witness: the unterminated-string branch at a concrete
input. -/
theorem c4_amended_unterminated_witness :
    nextToken ⟨[], [], 0, 0⟩ ⟨['"', 'a', 'b'], none⟩ =
      (Except.ok Tok.Stringval,
        ⟨[], [⟨Tok.StringConst, ConstVal.vstr (String.mk ['a', 'b'])⟩], 0, 0⟩,
        ⟨[], none⟩) :=
  (c4_amended_unterminated [] [] 0 0 none 'a' ['b']).1 (by decide)

/-! ## Claim C5 -/

/-- C5 counterexample: the line counter is not 1-based — a freshly built
lexer reports line 0, not 1, before any newline has been consumed. -/
theorem c5_counterexample :
    (NewLexer ['\n']).1.line = 0 ∧ ¬ (NewLexer ['\n']).1.line = 1 :=
  ⟨rfl, by decide⟩

/-- C5 amended: the externally observable line counter is 0-based —
`NewLexer` initialises it to 0 — and the whitespace-skipping loop increments
it exactly once for each newline character it skips: skipping a whitespace
prefix `ws` (whether it ends at a non-space character or at end of input)
adds exactly the number of newlines in `ws` to the counter. -/
theorem c5_amended_line_counter (prog : List Char) (ws rest : List Char)
    (line : Nat) (c : Char) :
    (NewLexer prog).1.line = 0 ∧
    (ws.all isSpaceGo = true → isSpaceGo c = false →
      skipLoop line (ws ++ c :: rest) =
        (some c, line + ws.countP (fun x => x = '\n'), rest)) ∧
    (ws.all isSpaceGo = true →
      skipLoop line ws = (none, line + ws.countP (fun x => x = '\n'), [])) := by
  refine ⟨rfl, ?_, ?_⟩
  · induction ws generalizing line with
    | nil =>
        intro _ hc
        have hnl : ¬ (c = '\n') := by
          intro h
          rw [h] at hc
          simp [isSpaceGo] at hc
        simp [skipLoop, hc, hnl]
    | cons w ws ih =>
        intro hall hc
        simp only [List.all_cons, Bool.and_eq_true] at hall
        rw [List.cons_append]
        rw [show skipLoop line (w :: (ws ++ c :: rest)) =
            skipLoop (if w = '\n' then line + 1 else line) (ws ++ c :: rest) from by
          simp [skipLoop, hall.1]]
        rw [ih (if w = '\n' then line + 1 else line) hall.2 hc]
        rw [List.countP_cons]
        by_cases hw : w = '\n' <;> simp [hw]
        all_goals omega
  · induction ws generalizing line with
    | nil => intro _; simp [skipLoop]
    | cons w ws ih =>
        intro hall
        simp only [List.all_cons, Bool.and_eq_true] at hall
        rw [show skipLoop line (w :: ws) =
            skipLoop (if w = '\n' then line + 1 else line) ws from by
          simp [skipLoop, hall.1]]
        rw [ih (if w = '\n' then line + 1 else line) hall.2]
        rw [List.countP_cons]
        by_cases hw : w = '\n' <;> simp [hw]
        all_goals omega

/-- C5 amended witness: skipping `" \n"` before an `'x'` bumps the counter
from 0 to 1. -/
theorem c5_amended_line_counter_witness :
    skipLoop 0 ([' ', '\n'] ++ 'x' :: []) =
      (some 'x', 0 + List.countP (fun x => x = '\n') [' ', '\n'], []) :=
  (c5_amended_line_counter [] [' ', '\n'] [] 0 'x').2.1 (by decide) (by decide)

/-! ## Claim C6 -/

/-- C6: one-character lookahead for operator starters, at the `nextToken`
layer the claim cites.  For each of `=`, `<`, `>`, `!`, `+`, `-`: the
completing second character is consumed and the compound token emitted; a
non-completing second character is pushed back (it heads the remaining
buffer) and the single-character token emitted; end of input after the
starter emits the single-character token with no error.  For `&` (and `|`):
the pair is consumed into `And` (`Or`), a non-pairing character is an
"Invalid character" error, and end of input while awaiting the pair is an
error (`io.EOF`), unlike the six single-char-capable starters. -/
theorem c6_operator_lookahead (ids : List (String × Nat)) (cs : List Constant)
    (ln st : Nat) (lr : Option Char) (c : Char) (rest : List Char) :
    ((nextToken ⟨ids, cs, ln, st⟩ ⟨'=' :: '=' :: rest, lr⟩ =
        (Except.ok Tok.EqualEqual, ⟨ids, cs, ln, st⟩, ⟨rest, some '='⟩)) ∧
      (¬ c = '=' → nextToken ⟨ids, cs, ln, st⟩ ⟨'=' :: c :: rest, lr⟩ =
        (Except.ok Tok.Equals, ⟨ids, cs, ln, st⟩, ⟨c :: rest, none⟩)) ∧
      (nextToken ⟨ids, cs, ln, st⟩ ⟨['='], lr⟩ =
        (Except.ok Tok.Equals, ⟨ids, cs, ln, st⟩, ⟨[], none⟩))) ∧
    ((nextToken ⟨ids, cs, ln, st⟩ ⟨'<' :: '=' :: rest, lr⟩ =
        (Except.ok Tok.LessOrEqual, ⟨ids, cs, ln, st⟩, ⟨rest, some '='⟩)) ∧
      (¬ c = '=' → nextToken ⟨ids, cs, ln, st⟩ ⟨'<' :: c :: rest, lr⟩ =
        (Except.ok Tok.LessThan, ⟨ids, cs, ln, st⟩, ⟨c :: rest, none⟩)) ∧
      (nextToken ⟨ids, cs, ln, st⟩ ⟨['<'], lr⟩ =
        (Except.ok Tok.LessThan, ⟨ids, cs, ln, st⟩, ⟨[], none⟩))) ∧
    ((nextToken ⟨ids, cs, ln, st⟩ ⟨'>' :: '=' :: rest, lr⟩ =
        (Except.ok Tok.GreaterOrEqual, ⟨ids, cs, ln, st⟩, ⟨rest, some '='⟩)) ∧
      (¬ c = '=' → nextToken ⟨ids, cs, ln, st⟩ ⟨'>' :: c :: rest, lr⟩ =
        (Except.ok Tok.GreaterThan, ⟨ids, cs, ln, st⟩, ⟨c :: rest, none⟩)) ∧
      (nextToken ⟨ids, cs, ln, st⟩ ⟨['>'], lr⟩ =
        (Except.ok Tok.GreaterThan, ⟨ids, cs, ln, st⟩, ⟨[], none⟩))) ∧
    ((nextToken ⟨ids, cs, ln, st⟩ ⟨'!' :: '=' :: rest, lr⟩ =
        (Except.ok Tok.NotEqual, ⟨ids, cs, ln, st⟩, ⟨rest, some '='⟩)) ∧
      (¬ c = '=' → nextToken ⟨ids, cs, ln, st⟩ ⟨'!' :: c :: rest, lr⟩ =
        (Except.ok Tok.Not, ⟨ids, cs, ln, st⟩, ⟨c :: rest, none⟩)) ∧
      (nextToken ⟨ids, cs, ln, st⟩ ⟨['!'], lr⟩ =
        (Except.ok Tok.Not, ⟨ids, cs, ln, st⟩, ⟨[], none⟩))) ∧
    ((nextToken ⟨ids, cs, ln, st⟩ ⟨'+' :: '+' :: rest, lr⟩ =
        (Except.ok Tok.PlusPlus, ⟨ids, cs, ln, st⟩, ⟨rest, some '+'⟩)) ∧
      (¬ c = '+' → nextToken ⟨ids, cs, ln, st⟩ ⟨'+' :: c :: rest, lr⟩ =
        (Except.ok Tok.Plus, ⟨ids, cs, ln, st⟩, ⟨c :: rest, none⟩)) ∧
      (nextToken ⟨ids, cs, ln, st⟩ ⟨['+'], lr⟩ =
        (Except.ok Tok.Plus, ⟨ids, cs, ln, st⟩, ⟨[], none⟩))) ∧
    ((nextToken ⟨ids, cs, ln, st⟩ ⟨'-' :: '-' :: rest, lr⟩ =
        (Except.ok Tok.MinusMinus, ⟨ids, cs, ln, st⟩, ⟨rest, some '-'⟩)) ∧
      (¬ c = '-' → nextToken ⟨ids, cs, ln, st⟩ ⟨'-' :: c :: rest, lr⟩ =
        (Except.ok Tok.Minus, ⟨ids, cs, ln, st⟩, ⟨c :: rest, none⟩)) ∧
      (nextToken ⟨ids, cs, ln, st⟩ ⟨['-'], lr⟩ =
        (Except.ok Tok.Minus, ⟨ids, cs, ln, st⟩, ⟨[], none⟩))) ∧
    ((nextToken ⟨ids, cs, ln, st⟩ ⟨'&' :: '&' :: rest, lr⟩ =
        (Except.ok Tok.And, ⟨ids, cs, ln, st⟩, ⟨rest, some '&'⟩)) ∧
      (¬ c = '&' → nextToken ⟨ids, cs, ln, st⟩ ⟨'&' :: c :: rest, lr⟩ =
        (Except.error LexErr.invalidCharacter, ⟨ids, cs, ln, st⟩, ⟨rest, some c⟩)) ∧
      (nextToken ⟨ids, cs, ln, st⟩ ⟨['&'], lr⟩ =
        (Except.error LexErr.ioEOF, ⟨ids, cs, ln, st⟩, ⟨[], none⟩))) ∧
    ((nextToken ⟨ids, cs, ln, st⟩ ⟨'|' :: '|' :: rest, lr⟩ =
        (Except.ok Tok.Or, ⟨ids, cs, ln, st⟩, ⟨rest, some '|'⟩)) ∧
      (¬ c = '|' → nextToken ⟨ids, cs, ln, st⟩ ⟨'|' :: c :: rest, lr⟩ =
        (Except.error LexErr.invalidCharacter, ⟨ids, cs, ln, st⟩, ⟨rest, some c⟩)) ∧
      (nextToken ⟨ids, cs, ln, st⟩ ⟨['|'], lr⟩ =
        (Except.error LexErr.ioEOF, ⟨ids, cs, ln, st⟩, ⟨[], none⟩))) := by
  refine ⟨⟨rfl, ?_, rfl⟩, ⟨rfl, ?_, rfl⟩, ⟨rfl, ?_, rfl⟩, ⟨rfl, ?_, rfl⟩,
    ⟨rfl, ?_, rfl⟩, ⟨rfl, ?_, rfl⟩, ⟨rfl, ?_, rfl⟩, ⟨rfl, ?_, rfl⟩⟩ <;>
    intro hc <;>
    simp [nextToken, skipLoop, nextTokenClassify, Buffer.readRune,
      Buffer.unreadRune, isSpaceGo, isAlpha, isDigit, hc]

/-- C6 witness: the pushback and error branches at concrete inputs. -/
theorem c6_operator_lookahead_witness :
    (nextToken ⟨[], [], 0, 0⟩ ⟨['=', '*'], none⟩ =
      (Except.ok Tok.Equals, ⟨[], [], 0, 0⟩, ⟨['*'], none⟩)) ∧
    (nextToken ⟨[], [], 0, 0⟩ ⟨['<', '*'], none⟩ =
      (Except.ok Tok.LessThan, ⟨[], [], 0, 0⟩, ⟨['*'], none⟩)) ∧
    (nextToken ⟨[], [], 0, 0⟩ ⟨['>', '*'], none⟩ =
      (Except.ok Tok.GreaterThan, ⟨[], [], 0, 0⟩, ⟨['*'], none⟩)) ∧
    (nextToken ⟨[], [], 0, 0⟩ ⟨['!', '*'], none⟩ =
      (Except.ok Tok.Not, ⟨[], [], 0, 0⟩, ⟨['*'], none⟩)) ∧
    (nextToken ⟨[], [], 0, 0⟩ ⟨['+', '*'], none⟩ =
      (Except.ok Tok.Plus, ⟨[], [], 0, 0⟩, ⟨['*'], none⟩)) ∧
    (nextToken ⟨[], [], 0, 0⟩ ⟨['-', '*'], none⟩ =
      (Except.ok Tok.Minus, ⟨[], [], 0, 0⟩, ⟨['*'], none⟩)) ∧
    (nextToken ⟨[], [], 0, 0⟩ ⟨['&', '*'], none⟩ =
      (Except.error LexErr.invalidCharacter, ⟨[], [], 0, 0⟩, ⟨[], some '*'⟩)) ∧
    (nextToken ⟨[], [], 0, 0⟩ ⟨['|', '*'], none⟩ =
      (Except.error LexErr.invalidCharacter, ⟨[], [], 0, 0⟩, ⟨[], some '*'⟩)) := by
  have h := c6_operator_lookahead [] [] 0 0 none '*' []
  exact ⟨h.1.2.1 (by decide), h.2.1.2.1 (by decide), h.2.2.1.2.1 (by decide),
    h.2.2.2.1.2.1 (by decide), h.2.2.2.2.1.2.1 (by decide),
    h.2.2.2.2.2.1.2.1 (by decide), h.2.2.2.2.2.2.1.2.1 (by decide),
    h.2.2.2.2.2.2.2.2.1 (by decide)⟩

/-! ## Claim C9 -/

/-- Looking a key up after appending it to a table that did not contain it. -/
theorem assocLookup_append_none {α : Type} :
    ∀ (tbl : List (String × α)) (s : String) (v : α),
      assocLookup tbl s = none → assocLookup (tbl ++ [(s, v)]) s = some v := by
  intro tbl s v
  induction tbl with
  | nil => intro _; simp [assocLookup]
  | cons p rest ih =>
      intro h
      match p with
      | (k, w) =>
          by_cases hk : k = s
          · simp [assocLookup, hk] at h
          · simp only [List.cons_append, assocLookup, if_neg hk] at h ⊢
            exact ih h

/-- A successful association lookup pinpoints an entry of the table. -/
theorem assocLookup_some_get {α : Type} :
    ∀ (tbl : List (String × α)) (s : String) (v : α),
      assocLookup tbl s = some v →
      ∃ (k : Nat) (h : k < tbl.length), tbl.get ⟨k, h⟩ = (s, v) := by
  intro tbl s v
  induction tbl with
  | nil => intro h; simp [assocLookup] at h
  | cons p rest ih =>
      intro h
      match p with
      | (k0, w0) =>
          by_cases hk : k0 = s
          · refine ⟨0, by simp, ?_⟩
            simp [assocLookup, hk] at h
            simp [hk, h]
          · simp only [assocLookup, if_neg hk] at h
            obtain ⟨k, hlt, heq⟩ := ih h
            exact ⟨k + 1, by simpa using Nat.succ_lt_succ hlt, heq⟩

/-- `get` of an append, at a position inside the left list. -/
theorem get_append_left_own {α : Type} :
    ∀ (l1 l2 : List α) (i : Nat) (h : i < l1.length)
      (h2 : i < (l1 ++ l2).length),
      (l1 ++ l2).get ⟨i, h2⟩ = l1.get ⟨i, h⟩ := by
  intro l1 l2
  induction l1 with
  | nil => intro i h; simp at h
  | cons a l1 ih =>
      intro i h h2
      match i with
      | 0 => rfl
      | i + 1 => exact ih i (Nat.lt_of_succ_lt_succ h) _

/-- `get` of an appended singleton, at the old length. -/
theorem get_append_last_own {α : Type} :
    ∀ (l1 : List α) (x : α) (h : l1.length < (l1 ++ [x]).length),
      (l1 ++ [x]).get ⟨l1.length, h⟩ = x := by
  intro l1 x
  induction l1 with
  | nil => intro h; rfl
  | cons a l1 ih => intro h; exact ih _

/-- The identifier-table invariant every table reachable from the empty one
satisfies: the id stored at each position is that position (ids are densely
assigned in order of first encounter). -/
def IdTblInv (tbl : List (String × Nat)) : Prop :=
  ∀ (i : Nat) (h : i < tbl.length), (tbl.get ⟨i, h⟩).2 = i

/-- C9: identifier interning is idempotent (re-registering a text returns the
same table and the same id); the dense-ids invariant holds for the empty
table and is preserved by every registration; under it, two different texts
are never mapped to the same id; and a fresh text is assigned id equal to
the table's size, i.e. ids are densely assigned in first-encounter order. -/
theorem c9_interning (tbl : List (String × Nat)) (s t : String) (i j : Nat) :
    (registerIdentifierTbl (registerIdentifierTbl tbl s).1 s =
      registerIdentifierTbl tbl s) ∧
    IdTblInv [] ∧
    (IdTblInv tbl → IdTblInv (registerIdentifierTbl tbl s).1) ∧
    (IdTblInv tbl → ¬ s = t → assocLookup tbl s = some i →
      assocLookup tbl t = some j → ¬ i = j) ∧
    (assocLookup tbl s = none →
      registerIdentifierTbl tbl s = (tbl ++ [(s, tbl.length)], tbl.length)) := by
  refine ⟨?_, ?_, ?_, ?_, ?_⟩
  · cases h : assocLookup tbl s with
    | some v => simp [registerIdentifierTbl, h]
    | none =>
        simp [registerIdentifierTbl, h, assocLookup_append_none tbl s tbl.length h]
  · intro k hk
    simp at hk
  · intro hinv
    cases h : assocLookup tbl s with
    | some v => simpa [registerIdentifierTbl, h] using hinv
    | none =>
        simp only [registerIdentifierTbl, h]
        intro k hk
        rcases Nat.lt_or_ge k tbl.length with hlt | hge
        · rw [get_append_left_own tbl _ k hlt hk]
          exact hinv k hlt
        · have hk2 : k < tbl.length + 1 := by simpa using hk
          have hkeq : k = tbl.length := by omega
          subst hkeq
          rw [get_append_last_own tbl _ hk]
  · intro hinv hst hs ht hij
    obtain ⟨k1, h1, e1⟩ := assocLookup_some_get tbl s i hs
    obtain ⟨k2, h2, e2⟩ := assocLookup_some_get tbl t j ht
    have hi : i = k1 := by
      have h3 := hinv k1 h1
      rw [e1] at h3
      simpa using h3
    have hj : j = k2 := by
      have h3 := hinv k2 h2
      rw [e2] at h3
      simpa using h3
    have hk12 : k1 = k2 := by omega
    have hfin : (⟨k1, h1⟩ : Fin tbl.length) = ⟨k2, h2⟩ := Fin.ext hk12
    have hpair : (s, i) = (t, j) := by rw [← e1, ← e2, hfin]
    simp only [Prod.mk.injEq] at hpair
    exact hst hpair.1
  · intro h
    simp [registerIdentifierTbl, h]

/-- C9 witness: concrete interning facts via the theorem. -/
theorem c9_interning_witness :
    ¬ (0 : Nat) = 1 ∧
    IdTblInv ((registerIdentifierTbl [("a", 0)] "b").1) ∧
    registerIdentifierTbl [("a", 0)] "b" = ([("a", 0), ("b", 1)], 1) := by
  have h := c9_interning [("a", 0), ("b", 1)] "a" "b" 0 1
  have h2 := c9_interning [("a", 0)] "b" "b" 0 0
  refine ⟨?_, ?_, ?_⟩
  · exact h.2.2.2.1 (by unfold IdTblInv; decide) (by decide) (by decide)
      (by decide)
  · exact h2.2.2.1 (by unfold IdTblInv; decide)
  · exact h2.2.2.2.2 (by decide)

/-! ## Claim C10 -/

/-- `get?` of an append, inside the left list. -/
theorem get?_append_left_own {α : Type} :
    ∀ (l1 l2 : List α) (j : Nat), j < l1.length →
      (l1 ++ l2).get? j = l1.get? j := by
  intro l1 l2
  induction l1 with
  | nil => intro j h; simp at h
  | cons a l1 ih =>
      intro j h
      match j with
      | 0 => rfl
      | j + 1 => exact ih j (Nat.lt_of_succ_lt_succ h)

/-- `get?` of an appended singleton, at the old length. -/
theorem get?_append_last_own {α : Type} :
    ∀ (l1 : List α) (x : α), (l1 ++ [x]).get? l1.length = some x := by
  intro l1 x
  induction l1 with
  | nil => rfl
  | cons a l1 ih => exact ih

/-- C10: the three literal kinds go into one shared constants table with a
single index space — each `add*Constant` returns the current length as the
new index, the entry stored there is the constant just added (of that one
kind), and earlier entries are untouched; and each accessor, on a valid
index whose stored constant has a value of a different dynamic type, returns
the zero value of the requested type (`rune(0)`, `""`, `0`) instead of
failing. -/
theorem c10_constants_table (cs : List Constant) (n : Nat) (s : String)
    (c : Char) (i : Nat) (t : Tok) (j : Nat) :
    ((addNumeralConstant cs n).2 = cs.length ∧
      (addStringConstant cs s).2 = cs.length ∧
      (addRuneConstant cs c).2 = cs.length) ∧
    ((addNumeralConstant cs n).1.get? cs.length =
        some ⟨Tok.Numeral, ConstVal.vint n⟩ ∧
      (addStringConstant cs s).1.get? cs.length =
        some ⟨Tok.StringConst, ConstVal.vstr s⟩ ∧
      (addRuneConstant cs c).1.get? cs.length =
        some ⟨Tok.Character, ConstVal.vrune c⟩) ∧
    (j < cs.length →
      ((addNumeralConstant cs n).1.get? j = cs.get? j ∧
        (addStringConstant cs s).1.get? j = cs.get? j ∧
        (addRuneConstant cs c).1.get? j = cs.get? j)) ∧
    (cs.get? i = some ⟨t, ConstVal.vint n⟩ →
      GetRuneConstant cs i = some (Char.ofNat 0) ∧
      GetStringConstant cs i = some "") ∧
    (cs.get? i = some ⟨t, ConstVal.vstr s⟩ →
      GetNumeralConstant cs i = some 0 ∧
      GetRuneConstant cs i = some (Char.ofNat 0)) ∧
    (cs.get? i = some ⟨t, ConstVal.vrune c⟩ →
      GetNumeralConstant cs i = some 0 ∧
      GetStringConstant cs i = some "") := by
  refine ⟨⟨rfl, rfl, rfl⟩, ⟨?_, ?_, ?_⟩, ?_, ?_, ?_, ?_⟩
  · exact get?_append_last_own cs _
  · exact get?_append_last_own cs _
  · exact get?_append_last_own cs _
  · intro hj
    exact ⟨get?_append_left_own cs _ j hj, get?_append_left_own cs _ j hj,
      get?_append_left_own cs _ j hj⟩
  · intro h
    exact ⟨by unfold GetRuneConstant; rw [h]; rfl,
      by unfold GetStringConstant; rw [h]; rfl⟩
  · intro h
    exact ⟨by unfold GetNumeralConstant; rw [h]; rfl,
      by unfold GetRuneConstant; rw [h]; rfl⟩
  · intro h
    exact ⟨by unfold GetNumeralConstant; rw [h]; rfl,
      by unfold GetStringConstant; rw [h]; rfl⟩

/-- C10 witness: cross-kind accessor reads and prefix preservation at
concrete tables. -/
theorem c10_constants_table_witness :
    (GetRuneConstant [⟨Tok.Numeral, ConstVal.vint 7⟩] 0 = some (Char.ofNat 0) ∧
      GetStringConstant [⟨Tok.Numeral, ConstVal.vint 7⟩] 0 = some "") ∧
    (GetNumeralConstant [⟨Tok.StringConst, ConstVal.vstr "hi"⟩] 0 = some 0 ∧
      GetRuneConstant [⟨Tok.StringConst, ConstVal.vstr "hi"⟩] 0 =
        some (Char.ofNat 0)) ∧
    (GetNumeralConstant [⟨Tok.Character, ConstVal.vrune 'z'⟩] 0 = some 0 ∧
      GetStringConstant [⟨Tok.Character, ConstVal.vrune 'z'⟩] 0 = some "") ∧
    (addRuneConstant [⟨Tok.Numeral, ConstVal.vint 7⟩] 'q').1.get? 0 =
      some ⟨Tok.Numeral, ConstVal.vint 7⟩ := by
  have h1 := c10_constants_table [⟨Tok.Numeral, ConstVal.vint 7⟩] 7 "w" 'q' 0
    Tok.Numeral 0
  have h2 := c10_constants_table [⟨Tok.StringConst, ConstVal.vstr "hi"⟩] 0 "hi"
    'q' 0 Tok.StringConst 0
  have h3 := c10_constants_table [⟨Tok.Character, ConstVal.vrune 'z'⟩] 0 "w"
    'z' 0 Tok.Character 0
  refine ⟨h1.2.2.2.1 (by decide), h2.2.2.2.2.1 (by decide),
    h3.2.2.2.2.2 (by decide), ?_⟩
  exact (h1.2.2.1 (by decide)).2.2.trans (by decide)
